import Mathlib

/-!
Verification development for the Specify repository.

The frontend types are embedded from the TypeScript declarations in
src/api/README.md and the hooks in src/frontend/lib/hooks.  The execution
engine (dispatcher, coordinator, graph, decomposer, message bus) is only
documented in the repository; its behaviour is modelled from the spec where
noted on each definition.
-/

namespace Specify

/-! ## Frontend data model, from src/api/README.md -/

/-- From src/api/README.md line 389:
`export type ExecutionStatus = 'pending' | 'running' | 'completed' | 'failed' | 'cancelled'`.
The list of string literals forming the `ExecutionStatus` union type. -/
def executionStatusValues : List String :=
  ["pending", "running", "completed", "failed", "cancelled"]

/-- From src/api/README.md lines 376-387: the field names of the
`ExecutionResult` interface, in declaration order. -/
def executionResultFields : List String :=
  ["id", "refinementId", "status", "dag", "agents", "artifacts",
   "progress", "startTime", "endTime", "logs"]

/-- From src/api/README.md lines 396-407: the field names of the
`DAGNode` interface, in declaration order. -/
def dagNodeFields : List String :=
  ["id", "type", "label", "status", "progress", "startTime", "endTime",
   "dependencies", "estimatedDuration", "actualDuration"]

/-- From src/api/README.md: the `DAGNode` interface.  `progress` is kept
optional because the frontend helper `calculateOverallProgress` receives the
nodes as `any[]` and defends against a missing `progress` with
`node.progress || 0`. -/
structure DAGNode where
  id : String
  type : String
  label : String
  status : String
  progress : Option ℚ
  startTime : Option String
  endTime : Option String
  dependencies : List String
  estimatedDuration : Option ℚ
  actualDuration : Option ℚ
deriving DecidableEq, Repr

/-- From src/api/README.md: the `DAGEdge` interface. -/
structure DAGEdge where
  id : String
  source : String
  target : String
  type : String
  label : Option String
deriving DecidableEq, Repr

/-- From src/api/README.md: the `ExecutionDAG` interface. -/
structure ExecutionDAG where
  nodes : List DAGNode
  edges : List DAGEdge
  criticalPath : List String
deriving DecidableEq, Repr

/-- From src/api/README.md: the `AgentStatus` interface. -/
structure AgentStatus where
  id : String
  type : String
  name : String
  status : String
  currentTask : Option String
  progress : ℚ
  startTime : Option String
  timeElapsed : ℚ
  outputPreview : Option String
  capabilities : List String
  queuedTasks : List String
deriving DecidableEq, Repr

/-- From src/api/README.md: the `Artifact` interface. -/
structure Artifact where
  id : String
  name : String
  type : String
  path : String
  content : String
  language : Option String
  size : ℚ
  checksum : String
  createdBy : String
  createdAt : String
  modifiedAt : String
deriving DecidableEq, Repr

/-- From src/api/README.md: the `ExecutionLog` interface (metadata omitted as an
opaque string map is never inspected by the hooks). -/
structure ExecutionLog where
  id : String
  timestamp : String
  level : String
  source : String
  message : String
deriving DecidableEq, Repr

/-- From src/api/README.md lines 376-387: the `ExecutionResult` interface. -/
structure ExecutionResult where
  id : String
  refinementId : String
  status : String
  dag : ExecutionDAG
  agents : List AgentStatus
  artifacts : List Artifact
  progress : ℚ
  startTime : String
  endTime : Option String
  logs : List ExecutionLog
deriving DecidableEq, Repr

/-- From src/api/README.md lines 570-577: the `ExecutionState` interface used by
the `useExecution` hook. -/
structure ExecutionState where
  isExecuting : Bool
  result : Option ExecutionResult
  progress : ℚ
  error : Option String
  selectedNodeId : Option String
  viewMode : String
deriving DecidableEq, Repr

/-- From src/api/README.md lines 281-290: the `AnalysisResult` interface
(ambiguities kept as their descriptions; the hook never inspects them). -/
structure AnalysisResult where
  id : String
  sessionId : String
  intent : String
  requirements : List String
  assumptions : List String
  ambiguities : List String
  timestamp : String
  confidence : ℚ
deriving DecidableEq, Repr

/-- From src/api/README.md lines 547-553: the `AnalysisState` interface used by
the `useAnalysis` hook. -/
structure AnalysisState where
  prompt : String
  isAnalyzing : Bool
  result : Option AnalysisResult
  progress : ℚ
  error : Option String
deriving DecidableEq, Repr

/-! ## WebSocket observer interface, from src/api/README.md and
src/frontend/lib/hooks/useExecution.ts -/

/-- From src/frontend/lib/hooks/useExecution.ts line 27: after a dispatch the
hook makes a single subscription call, on the topic built from the execution
id: `subscribe(exec-$\x7bresult.id\x7d, handlers)`.  This is the complete list
of topics the observer subscribes for one dispatch. -/
def executionSubscriptionTopics (resultId : String) : List String :=
  ["exec-" ++ resultId]

/-- From src/api/README.md lines 483-492: the payload field names of the
`ExecutionProgressEvent` interface. -/
def executionProgressPayloadFields : List String :=
  ["executionId", "nodeId", "progress", "status", "message"]

/-- From src/api/README.md lines 494-504: the payload field names of the
`AgentStatusEvent` interface. -/
def agentStatusPayloadFields : List String :=
  ["executionId", "agentId", "status", "currentTask", "progress", "message"]

/-! ## Frontend hook logic, from src/frontend/lib/hooks -/

/-- From src/frontend/lib/hooks/useExecution.ts lines 273-291:
`calculateOverallProgress(nodes, updatedNodeId, updatedProgress)`.  Returns 0
when the node list is empty (the division by `totalNodes` is guarded);
otherwise accumulates each node contribution in a loop — `updatedProgress` for
the node whose id matches, `node.progress || 0` for the rest — and returns
`Math.round(totalProgress / totalNodes)`.  Total by construction. -/
def calculateOverallProgress (nodes : List DAGNode) (updatedNodeId : String)
    (updatedProgress : ℚ) : ℚ :=
  let totalNodes := nodes.length
  if totalNodes = 0 then 0
  else
    let totalProgress := nodes.foldl
      (fun acc node =>
        if node.id == updatedNodeId then acc + updatedProgress
        else acc + node.progress.getD 0) 0
    ((round (totalProgress / (totalNodes : ℚ)) : ℤ) : ℚ)

/-- Payload of an `execution_progress` WebSocket event, from
src/api/README.md lines 483-492 (the fields the handler reads). -/
structure ProgressEventData where
  nodeId : String
  progress : ℚ
  status : String
deriving DecidableEq, Repr

/-- From src/frontend/lib/hooks/useExecution.ts lines 28-53: the
`execution_progress` handler.  When a result is stored, it maps over the DAG
nodes replacing `progress` and `status` on the node whose id matches
`data.nodeId`, recomputes the overall progress from the previous nodes, and
stores the updated result; otherwise it returns the previous state. -/
def handleExecutionProgress (data : ProgressEventData) (prev : ExecutionState) :
    ExecutionState :=
  match prev.result with
  | some r =>
      let updatedResult : ExecutionResult :=
        { r with
          dag :=
            { r.dag with
              nodes := r.dag.nodes.map (fun node =>
                if node.id == data.nodeId then
                  { node with progress := some data.progress, status := data.status }
                else node) }
          progress := calculateOverallProgress r.dag.nodes data.nodeId data.progress }
      { prev with result := some updatedResult, progress := updatedResult.progress }
  | none => prev

/-- The outcome of an awaited API call, as seen by a hook `catch` block:
success, a rejection with an `APIError` carrying a message, or any other
exception. -/
inductive ApiOutcome (α : Type)
  | ok (value : α)
  | apiError (message : String)
  | otherError
deriving DecidableEq, Repr

/-- From src/frontend/lib/hooks/useExecution.ts line 115 and
src/frontend/lib/hooks/useAnalysis.ts line 59: the fallback message used when
the caught exception is not an `APIError`. -/
def genericErrorMessage : String := "An unexpected error occurred"

/-- From src/frontend/lib/hooks/useExecution.ts lines 15-126:
`executeSpecification`.  The state first gets `isExecuting: true, progress: 0,
error: undefined`; on success the result is stored with `isExecuting` kept
true; on rejection the catch block stores the error message (`error.message`
for an `APIError`, the generic fallback otherwise), sets `isExecuting: false`
and `progress: 0`, leaves `result` untouched, and rethrows. -/
def executeSpecification (prev : ExecutionState) (outcome : ApiOutcome ExecutionResult) :
    ExecutionState × Except String ExecutionResult :=
  let s : ExecutionState := { prev with isExecuting := true, progress := 0, error := none }
  match outcome with
  | ApiOutcome.ok result =>
      ({ s with result := some result, isExecuting := true }, Except.ok result)
  | ApiOutcome.apiError m =>
      ({ s with error := some m, isExecuting := false, progress := 0 }, Except.error m)
  | ApiOutcome.otherError =>
      ({ s with error := some genericErrorMessage, isExecuting := false, progress := 0 },
       Except.error genericErrorMessage)

/-- From src/frontend/lib/hooks/useAnalysis.ts lines 16-70: `analyzePrompt`.
The state first gets `isAnalyzing: true, progress: 0, error: undefined`; on
success the result is stored with `isAnalyzing: false, progress: 100`; on
rejection the catch block stores the error message (`error.message` for an
`APIError`, the generic fallback otherwise), sets `isAnalyzing: false` and
`progress: 0`, leaves `result` untouched, and rethrows. -/
def analyzePrompt (prev : AnalysisState) (outcome : ApiOutcome AnalysisResult) :
    AnalysisState × Except String AnalysisResult :=
  let s : AnalysisState := { prev with isAnalyzing := true, progress := 0, error := none }
  match outcome with
  | ApiOutcome.ok result =>
      ({ s with result := some result, isAnalyzing := false, progress := 100 }, Except.ok result)
  | ApiOutcome.apiError m =>
      ({ s with error := some m, isAnalyzing := false, progress := 0 }, Except.error m)
  | ApiOutcome.otherError =>
      ({ s with error := some genericErrorMessage, isAnalyzing := false, progress := 0 },
       Except.error genericErrorMessage)

/-! ## Coordinator state machine (engine), modelled from the spec -/

/-- Modelled from the spec: the per-task states of the Coordinator state
machine (spec section 4.4); the coordinator source file itself is not in the
repository snapshot. -/
inductive TStatus
  | pending
  | ready
  | scheduled
  | running
  | completed
  | failed
  | cancelled
  | skipped
deriving DecidableEq, Repr

/-- Modelled from the spec: the allowed transitions of the Coordinator state
machine — `Pending → Ready → Scheduled → Running → (Completed, Failed,
Cancelled or Skipped)`, and `Failed` may return to `Pending` on retry. -/
def canTransition : TStatus → TStatus → Bool
  | TStatus.pending, TStatus.ready => true
  | TStatus.ready, TStatus.scheduled => true
  | TStatus.scheduled, TStatus.running => true
  | TStatus.running, TStatus.completed => true
  | TStatus.running, TStatus.failed => true
  | TStatus.running, TStatus.cancelled => true
  | TStatus.running, TStatus.skipped => true
  | TStatus.failed, TStatus.pending => true
  | _, _ => false

/-- Modelled from the spec: the default retry bound of the Coordinator
("default max 3 attempts, exponential backoff"). -/
def defaultMaxRetries : Nat := 3

/-- A task as the Coordinator sees it: an id and the ids of the tasks it
depends on. -/
structure MTask where
  id : String
  deps : List String
deriving DecidableEq, Repr

/-- The outcome the Coordinator records for one task: its final status, the
failed ancestor recorded as the skip reason (when skipped), and the sequence
of statuses the task passed through. -/
structure TaskOutcome where
  status : TStatus
  skipReason : Option String
  trace : List TStatus
deriving DecidableEq, Repr

/-- Modelled from the spec: the statuses one execution attempt (plus retries)
passes through — `Ready → Scheduled → Running → Completed` on success, and on
failure `Ready → Scheduled → Running → Failed`, returning to `Pending` while
retries remain. -/
def attemptTrace (succeeds : Bool) : Nat → List TStatus
  | 0 =>
      [TStatus.ready, TStatus.scheduled, TStatus.running,
       if succeeds then TStatus.completed else TStatus.failed]
  | n + 1 =>
      if succeeds then
        [TStatus.ready, TStatus.scheduled, TStatus.running, TStatus.completed]
      else
        [TStatus.ready, TStatus.scheduled, TStatus.running, TStatus.failed, TStatus.pending]
          ++ attemptTrace false n
/-- The full status trace of a dispatched task, starting from `Pending`. -/
def runStatuses (succeeds : Bool) (maxRetries : Nat) : List TStatus :=
  TStatus.pending :: attemptTrace succeeds maxRetries

/-- Look up the recorded outcome of a task id in the accumulated outcome
table. -/
def findOutcome (acc : List (String × TaskOutcome)) (id : String) :
    Option TaskOutcome :=
  (acc.find? (fun p => p.1 == id)).map Prod.snd

/-- Modelled from the spec: the failed ancestor responsible for skipping a
task, if any — a dependency that ended terminally `Failed` is the ancestor
itself; a dependency that was itself skipped passes its recorded ancestor
through ("a recorded reason referencing the failed ancestor"). -/
def skipCause (acc : List (String × TaskOutcome)) (deps : List String) :
    Option String :=
  deps.findSome? (fun d =>
    match findOutcome acc d with
    | some o =>
        match o.status with
        | TStatus.failed => some d
        | TStatus.skipped => o.skipReason
        | _ => none
    | none => none)

/-- Modelled from the spec: the Coordinator run over a topologically ordered
task list.  A task whose dependency chain contains a terminally failed task is
marked `Skipped` with the failed ancestor as its reason and never enters
`Running`; a task whose dependencies are all `Completed` executes with
retries; the coordinator source file itself is not in the repository
snapshot. -/
def runTasks (succeeds : String → Bool) (maxRetries : Nat) (tasks : List MTask) :
    List (String × TaskOutcome) :=
  tasks.foldl
    (fun acc t =>
      match skipCause acc t.deps with
      | some anc =>
          acc ++ [(t.id,
            ⟨TStatus.skipped, some anc, [TStatus.pending, TStatus.skipped]⟩)]
      | none =>
          if t.deps.all (fun d =>
              (findOutcome acc d).any (fun o => o.status == TStatus.completed)) then
            acc ++ [(t.id,
              ⟨if succeeds t.id then TStatus.completed else TStatus.failed, none,
               runStatuses (succeeds t.id) maxRetries⟩)]
          else
            acc ++ [(t.id, ⟨TStatus.pending, none, [TStatus.pending]⟩)])
    []

/-! ## ExecutionGraph build and cycle detection (engine), modelled from the
spec -/

/-- Modelled from the spec: the structural error raised by
`ExecutionGraph.build` when the edge set contains a cycle. -/
inductive BuildError
  | cycleDetected
deriving DecidableEq, Repr

/-- Whether node `v` still has an incoming edge from a node of `remaining`. -/
def hasIncomingFrom (edges : List (String × String)) (remaining : List String)
    (v : String) : Bool :=
  edges.any (fun e => e.2 == v && remaining.contains e.1)

/-- Modelled from the spec: one Kahn-style elimination pass — repeatedly
remove every node with no incoming edge from the remaining set, emitting the
removed nodes in order; if at some point no node can be removed while nodes
remain, a cycle was detected.  Fuel bounds the number of rounds; each
successful round removes at least one node, so `remaining.length` rounds
always suffice. -/
def kahnAux (edges : List (String × String)) :
    Nat → List String → Except BuildError (List String)
  | _, [] => Except.ok []
  | 0, _ :: _ => Except.error BuildError.cycleDetected
  | fuel + 1, v :: rest =>
      let remaining := v :: rest
      let ready := remaining.filter (fun x => ! hasIncomingFrom edges remaining x)
      if ready.isEmpty then Except.error BuildError.cycleDetected
      else
        match kahnAux edges fuel
            (remaining.filter (fun x => hasIncomingFrom edges remaining x)) with
        | Except.ok order => Except.ok (ready ++ order)
        | Except.error e => Except.error e

/-- Modelled from the spec: `ExecutionGraph.build(tasks, edges)` — runs the
topological attempt and fails with `CycleDetected` when it cannot order every
task; the graph source file itself is not in the repository snapshot. -/
def build (tasks : List String) (edges : List (String × String)) :
    Except BuildError (List String) :=
  kahnAux edges tasks.length tasks

/-- One directed edge step of the dependency relation. -/
def EdgeStep (edges : List (String × String)) (u v : String) : Prop :=
  (u, v) ∈ edges

/-- The edge set contains a directed cycle: some node reaches itself along a
nonempty chain of edges. -/
def HasCycle (edges : List (String × String)) : Prop :=
  ∃ v l, List.Chain (EdgeStep edges) v (l ++ [v])

/-- A nonempty set of nodes each of which has an incoming edge from within the
set — exactly the configuration on which the Kahn elimination gets stuck. -/
def StuckSet (edges : List (String × String)) (R : List String) : Prop :=
  R ≠ [] ∧ ∀ v ∈ R, ∃ u ∈ R, (u, v) ∈ edges

/-! ## TaskDecomposer (engine), modelled from the spec -/

/-- Modelled from the spec: the closed capability enum of task types. -/
inductive TaskType
  | codeWriting
  | research
  | testing
  | review
  | generic
deriving DecidableEq, Repr

/-- A decomposed task: id, capability type and description. -/
structure DTask where
  id : String
  type : TaskType
  description : String
deriving DecidableEq, Repr

/-- From the spec (section 6): the required input shape
`\x7brequirements: [...], constraints: [...]\x7d`. -/
structure Specification where
  requirements : List String
  constraints : List String
deriving DecidableEq, Repr

/-- The empty specification: no requirements, no constraints. -/
def emptySpec : Specification := ⟨[], []⟩

/-- Modelled from the spec: the error raised on an unparseable or empty
specification. -/
inductive DecompositionError
  | emptySpecification
deriving DecidableEq, Repr

/-- Modelled from the spec: `decompose(specification)` with output validation
— one task per requirement, every task must have a non-empty description, and
an empty or fully invalid result fails with `DecompositionError`; the
decomposer source file itself is not in the repository snapshot. -/
def decompose (spec : Specification) : Except DecompositionError (List DTask) :=
  let tasks := spec.requirements.map (fun r => DTask.mk r TaskType.codeWriting r)
  let valid := tasks.filter (fun t => ! t.description.isEmpty)
  if valid.isEmpty then Except.error DecompositionError.emptySpecification
  else Except.ok valid

/-- Modelled from the spec: the deterministic fallback decomposer — rule-based
tasks for recognized requirements, and when nothing matches (for instance on
an empty specification) a single generic task, never an empty list. -/
def fallbackDecompose (spec : Specification) : List DTask :=
  let tasks := (spec.requirements.filter (fun r => ! r.isEmpty)).map
    (fun r => DTask.mk r TaskType.generic r)
  if tasks.isEmpty then
    [DTask.mk "generic-task" TaskType.generic "Implement the specification"]
  else tasks

/-! ## MessageBus backpressure (engine), modelled from the spec -/

/-- From the spec (section 3): a bus message — topic, payload, priority,
timestamp, ttl. -/
structure BusMessage where
  topic : String
  payload : String
  priority : Nat
  timestamp : Nat
  ttl : Nat
deriving DecidableEq, Repr

/-- One subscriber inbound queue with its configured bound and drop
counter. -/
structure SubscriberQueue where
  bound : Nat
  queue : List BusMessage
  dropped : Nat
deriving DecidableEq, Repr

/-- Modelled from the spec: delivery of one published message to a subscriber
— enqueue while the inbound queue is below its bound, otherwise drop the
message and increment the drop counter; the call always returns immediately
(publishing never blocks); the bus source file itself is not in the
repository snapshot. -/
def publish (s : SubscriberQueue) (m : BusMessage) : SubscriberQueue :=
  if s.queue.length < s.bound then { s with queue := s.queue ++ [m] }
  else { s with dropped := s.dropped + 1 }

/-- Deliver a burst of messages in order. -/
def publishAll (s : SubscriberQueue) (ms : List BusMessage) : SubscriberQueue :=
  ms.foldl publish s

/-! ## Helper lemmas -/

/-- Accumulator form of the progress fold of `calculateOverallProgress`. -/
lemma foldl_progress (uid : String) (p : ℚ) (l : List DAGNode) :
    ∀ a : ℚ,
      l.foldl (fun acc node =>
        if node.id == uid then acc + p else acc + node.progress.getD 0) a
        = a + (l.map (fun node =>
            if node.id = uid then p else node.progress.getD 0)).sum := by
  induction l with
  | nil => intro a; simp
  | cons x xs ih =>
      intro a
      by_cases h : x.id = uid
      · simp only [List.foldl_cons, List.map_cons, List.sum_cons, h,
          beq_self_eq_true, if_true, ih]
        ring
      · have hb : (x.id == uid) = false := by simp [h]
        simp only [List.foldl_cons, List.map_cons, List.sum_cons, hb,
          Bool.false_eq_true, if_false, h, ih]
        ring

/-- Queue length, drop counter and bound of a subscriber after a burst of
publishes, provided the queue starts within its bound. -/
lemma publishAll_counts (ms : List BusMessage) :
    ∀ s : SubscriberQueue, s.queue.length ≤ s.bound →
      (publishAll s ms).queue.length = min (s.queue.length + ms.length) s.bound ∧
      (publishAll s ms).dropped = s.dropped + (s.queue.length + ms.length - s.bound) := by
  induction ms with
  | nil =>
      intro s hs
      constructor
      · simp [publishAll, Nat.min_eq_left hs]
      · simp [publishAll, Nat.sub_eq_zero_of_le hs]
  | cons m ms ih =>
      intro s hs
      show (publishAll (publish s m) ms).queue.length = _ ∧
        (publishAll (publish s m) ms).dropped = _
      by_cases h : s.queue.length < s.bound
      · have hpub : publish s m = { s with queue := s.queue ++ [m] } := by
          simp [publish, h]
        rw [hpub]
        obtain ⟨hq, hd⟩ := ih { s with queue := s.queue ++ [m] } (by simpa using h)
        simp only [List.length_append, List.length_cons, List.length_nil] at hq hd
        constructor
        · rw [hq]; simp only [List.length_cons]; omega
        · rw [hd]; simp only [List.length_cons]; omega
      · have hpub : publish s m = { s with dropped := s.dropped + 1 } := by
          simp [publish, h]
        rw [hpub]
        obtain ⟨hq, hd⟩ := ih { s with dropped := s.dropped + 1 } hs
        constructor
        · rw [hq]; simp only [List.length_cons]; omega
        · rw [hd]; simp only [List.length_cons]; omega

/-! ## Claims -/

/-- C1 (counterexample): the claim asserts that Ready, Scheduled and Skipped
exist as representable task statuses; the `ExecutionStatus` union type
declared in src/api/README.md contains none of them. -/
theorem c1_counterexample :
    "ready" ∉ executionStatusValues ∧ "scheduled" ∉ executionStatusValues ∧
      "skipped" ∉ executionStatusValues := by decide

/-- C1 (amended): the Coordinator state machine modelled from the spec follows
`Pending → Ready → Scheduled → Running → (Completed, Failed, Cancelled or
Skipped)` with `Failed` returning to `Pending` on retry (default bound 3), and
its terminal states Completed, Cancelled and Skipped admit no further
transition; however the representable `ExecutionStatus` type of the code
contains exactly pending, running, completed, failed and cancelled — Ready,
Scheduled and Skipped are not representable task statuses. -/
theorem c1_state_machine (t : TStatus) :
    (canTransition TStatus.pending TStatus.ready = true ∧
     canTransition TStatus.ready TStatus.scheduled = true ∧
     canTransition TStatus.scheduled TStatus.running = true ∧
     canTransition TStatus.running TStatus.completed = true ∧
     canTransition TStatus.running TStatus.failed = true ∧
     canTransition TStatus.running TStatus.cancelled = true ∧
     canTransition TStatus.running TStatus.skipped = true ∧
     canTransition TStatus.failed TStatus.pending = true) ∧
    (canTransition TStatus.completed t = false ∧
     canTransition TStatus.cancelled t = false ∧
     canTransition TStatus.skipped t = false ∧
     (canTransition TStatus.failed t = true ↔ t = TStatus.pending)) ∧
    defaultMaxRetries = 3 ∧
    ("pending" ∈ executionStatusValues ∧ "running" ∈ executionStatusValues ∧
     "completed" ∈ executionStatusValues ∧ "failed" ∈ executionStatusValues ∧
     "cancelled" ∈ executionStatusValues) ∧
    ("ready" ∉ executionStatusValues ∧ "scheduled" ∉ executionStatusValues ∧
     "skipped" ∉ executionStatusValues) := by
  cases t <;> decide

/-- C4 (counterexample): the `ExecutionResult` interface declared in
src/api/README.md has no `tasks` field and no `metrics` field, and its
per-task entries (the DAG nodes) have no `outputArtifacts` field. -/
theorem c4_counterexample :
    "tasks" ∉ executionResultFields ∧ "metrics" ∉ executionResultFields ∧
      "outputArtifacts" ∉ dagNodeFields := by decide

/-- C4 (amended): the execution result contains the fields status, dag,
agents, artifacts, progress and logs; its per-task entries are the DAG nodes,
each carrying id, status and progress; it has no top-level `tasks` or
`metrics` field and the nodes carry no `outputArtifacts` field. -/
theorem c4_result_shape :
    ("status" ∈ executionResultFields ∧ "artifacts" ∈ executionResultFields ∧
     "dag" ∈ executionResultFields ∧ "agents" ∈ executionResultFields ∧
     "progress" ∈ executionResultFields ∧ "logs" ∈ executionResultFields) ∧
    ("id" ∈ dagNodeFields ∧ "status" ∈ dagNodeFields ∧
     "progress" ∈ dagNodeFields) ∧
    ("tasks" ∉ executionResultFields ∧ "metrics" ∉ executionResultFields ∧
     "outputArtifacts" ∉ dagNodeFields) := by decide

/-- C5: the decomposer fails with `DecompositionError` on the empty
specification, while the deterministic fallback decomposer never returns an
empty task list and, on the same empty input, returns a generic task. -/
theorem c5_decomposer :
    decompose emptySpec = Except.error DecompositionError.emptySpecification ∧
    (∀ spec : Specification, fallbackDecompose spec ≠ []) ∧
    (∃ t ∈ fallbackDecompose emptySpec, t.type = TaskType.generic) := by
  refine ⟨rfl, ?_, ?_⟩
  · intro spec
    simp only [fallbackDecompose]
    split
    · simp
    · rename_i h
      intro hc
      rw [hc] at h
      simp at h
  · exact ⟨DTask.mk "generic-task" TaskType.generic "Implement the specification",
      by decide, rfl⟩

/-- C6: a subscriber whose inbound queue bound is 5 receiving any burst of 10
publishes ends with exactly 5 messages delivered and exactly 5 recorded by the
drop counter; moreover every single publish returns immediately, accounting
the message as either delivered or dropped (publishing never blocks). -/
theorem c6_backpressure (ms : List BusMessage) (h : ms.length = 10) :
    ((publishAll (SubscriberQueue.mk 5 [] 0) ms).queue.length = 5 ∧
     (publishAll (SubscriberQueue.mk 5 [] 0) ms).dropped = 5) ∧
    (∀ (s : SubscriberQueue) (m : BusMessage),
      (publish s m).queue.length + ((publish s m).dropped - s.dropped)
        = s.queue.length + 1 ∨
      (publish s m).queue.length = s.queue.length ∧
        (publish s m).dropped = s.dropped + 1) := by
  constructor
  · obtain ⟨hq, hd⟩ := publishAll_counts ms (SubscriberQueue.mk 5 [] 0) (by simp)
    rw [h] at hq hd
    exact ⟨by simpa using hq, by simpa using hd⟩
  · intro s m
    by_cases hn : s.queue.length < s.bound
    · left
      simp [publish, hn]
    · right
      simp [publish, hn]

/-- C6 (witness): the backpressure scenario at a concrete burst of 10
messages. -/
theorem c6_backpressure_witness :
    (List.replicate 10 (BusMessage.mk "t" "p" 0 0 0)).length = 10 ∧
    ((publishAll (SubscriberQueue.mk 5 [] 0)
        (List.replicate 10 (BusMessage.mk "t" "p" 0 0 0))).queue.length = 5 ∧
     (publishAll (SubscriberQueue.mk 5 [] 0)
        (List.replicate 10 (BusMessage.mk "t" "p" 0 0 0))).dropped = 5) :=
  ⟨by decide, ((c6_backpressure _ (by decide)).1.1), ((c6_backpressure _ (by decide)).1.2)⟩

/-- C7 (counterexample): for a dispatch whose execution id is "e1" and whose
DAG contains the tasks "t1" and "t2" and the agent "a1", the hook makes a
single subscription on the topic "exec-e1" — there is no topic per task id nor
per agent id. -/
theorem c7_counterexample :
    executionSubscriptionTopics "e1" = ["exec-e1"] ∧
    (executionSubscriptionTopics "e1").length = 1 ∧
    "t1" ∉ executionSubscriptionTopics "e1" ∧
    "t2" ∉ executionSubscriptionTopics "e1" ∧
    "a1" ∉ executionSubscriptionTopics "e1" := by decide

/-- C7 (amended): progress events are observed through a single per-execution
subscription topic, and the per-task and per-agent identification is carried
in the event payloads — `nodeId` in `execution_progress` events and `agentId`
in `agent_status` events — so an observer distinguishes tasks and agents by
payload, not by topic. -/
theorem c7_topics (resultId : String) :
    (executionSubscriptionTopics resultId).length = 1 ∧
    "nodeId" ∈ executionProgressPayloadFields ∧
    "agentId" ∈ agentStatusPayloadFields ∧
    "nodeId" ∉ agentStatusPayloadFields ∧
    "agentId" ∉ executionProgressPayloadFields :=
  ⟨rfl, by decide, by decide, by decide, by decide⟩

/-- C8: `calculateOverallProgress` returns 0 on an empty node list, and
otherwise the rounded arithmetic mean in which the nodes matching
`updatedNodeId` contribute `updatedProgress` and every other node contributes
its own progress, a missing progress counting as 0. -/
theorem c8_overall_progress (nodes : List DAGNode) (uid : String) (p : ℚ)
    (h : nodes ≠ []) :
    calculateOverallProgress [] uid p = 0 ∧
    calculateOverallProgress nodes uid p =
      ((round ((nodes.map (fun node =>
          if node.id = uid then p else node.progress.getD 0)).sum
        / (nodes.length : ℚ)) : ℤ) : ℚ) := by
  refine ⟨rfl, ?_⟩
  unfold calculateOverallProgress
  rw [if_neg (by simpa using h), foldl_progress]
  norm_num

/-- C8 (witness): the rounded-mean characterization at a concrete two-node
list. -/
theorem c8_overall_progress_witness :
    [DAGNode.mk "t1" "task" "L1" "running" (some 50) none none [] none none,
     DAGNode.mk "t2" "task" "L2" "pending" none none none [] none none]
      ≠ ([] : List DAGNode) ∧
    calculateOverallProgress
      [DAGNode.mk "t1" "task" "L1" "running" (some 50) none none [] none none,
       DAGNode.mk "t2" "task" "L2" "pending" none none none [] none none]
      "t1" 80 =
      ((round (([DAGNode.mk "t1" "task" "L1" "running" (some 50) none none [] none none,
          DAGNode.mk "t2" "task" "L2" "pending" none none none [] none none].map
            (fun node => if node.id = "t1" then (80 : ℚ)
              else node.progress.getD 0)).sum / (2 : ℚ)) : ℤ) : ℚ) :=
  ⟨List.cons_ne_nil _ _,
    (c8_overall_progress _ "t1" 80 (List.cons_ne_nil _ _)).2⟩

/-- C10: whenever the awaited API call of `executeSpecification` or
`analyzePrompt` rejects, the hook state ends with the in-progress flag false,
progress 0 and the error set to the `APIError` message (or the generic
fallback for other exceptions), the previously stored result is unchanged, and
the failure is rethrown to the caller. -/
theorem c10_failure_path (prevE : ExecutionState) (prevA : AnalysisState)
    (m : String) :
    ((executeSpecification prevE (ApiOutcome.apiError m)).1.isExecuting = false ∧
     (executeSpecification prevE (ApiOutcome.apiError m)).1.progress = 0 ∧
     (executeSpecification prevE (ApiOutcome.apiError m)).1.error = some m ∧
     (executeSpecification prevE (ApiOutcome.apiError m)).1.result = prevE.result ∧
     (executeSpecification prevE (ApiOutcome.apiError m)).2 = Except.error m) ∧
    ((executeSpecification prevE ApiOutcome.otherError).1.isExecuting = false ∧
     (executeSpecification prevE ApiOutcome.otherError).1.progress = 0 ∧
     (executeSpecification prevE ApiOutcome.otherError).1.error
        = some genericErrorMessage ∧
     (executeSpecification prevE ApiOutcome.otherError).1.result = prevE.result ∧
     (executeSpecification prevE ApiOutcome.otherError).2
        = Except.error genericErrorMessage) ∧
    ((analyzePrompt prevA (ApiOutcome.apiError m)).1.isAnalyzing = false ∧
     (analyzePrompt prevA (ApiOutcome.apiError m)).1.progress = 0 ∧
     (analyzePrompt prevA (ApiOutcome.apiError m)).1.error = some m ∧
     (analyzePrompt prevA (ApiOutcome.apiError m)).1.result = prevA.result ∧
     (analyzePrompt prevA (ApiOutcome.apiError m)).2 = Except.error m) ∧
    ((analyzePrompt prevA ApiOutcome.otherError).1.isAnalyzing = false ∧
     (analyzePrompt prevA ApiOutcome.otherError).1.progress = 0 ∧
     (analyzePrompt prevA ApiOutcome.otherError).1.error
        = some genericErrorMessage ∧
     (analyzePrompt prevA ApiOutcome.otherError).1.result = prevA.result ∧
     (analyzePrompt prevA ApiOutcome.otherError).2
        = Except.error genericErrorMessage) :=
  ⟨⟨rfl, rfl, rfl, rfl, rfl⟩, ⟨rfl, rfl, rfl, rfl, rfl⟩,
   ⟨rfl, rfl, rfl, rfl, rfl⟩, ⟨rfl, rfl, rfl, rfl, rfl⟩⟩

/-- C2: in every dependency chain A→B→C in which A exhausts its retries and
ends terminally `Failed`, the downstream tasks B and C end `Skipped` with a
recorded reason referencing the failed ancestor A, and neither ever enters the
`Running` state. -/
theorem c2_failure_cascade (a b c : String) (succeeds : String → Bool)
    (hab : a ≠ b) (hac : a ≠ c) (hbc : b ≠ c) (hfail : succeeds a = false) :
    ∃ oa ob oc : TaskOutcome,
      findOutcome (runTasks succeeds defaultMaxRetries
        [MTask.mk a [], MTask.mk b [a], MTask.mk c [b]]) a = some oa ∧
      findOutcome (runTasks succeeds defaultMaxRetries
        [MTask.mk a [], MTask.mk b [a], MTask.mk c [b]]) b = some ob ∧
      findOutcome (runTasks succeeds defaultMaxRetries
        [MTask.mk a [], MTask.mk b [a], MTask.mk c [b]]) c = some oc ∧
      oa.status = TStatus.failed ∧
      ob.status = TStatus.skipped ∧ ob.skipReason = some a ∧
      oc.status = TStatus.skipped ∧ oc.skipReason = some a ∧
      TStatus.running ∉ ob.trace ∧ TStatus.running ∉ oc.trace := by
  have h1 : (a == b) = false := by simp [hab]
  have h2 : (a == c) = false := by simp [hac]
  have h3 : (b == c) = false := by simp [hbc]
  have hrun : runTasks succeeds defaultMaxRetries
      [MTask.mk a [], MTask.mk b [a], MTask.mk c [b]] =
      [(a, ⟨TStatus.failed, none, runStatuses false defaultMaxRetries⟩),
       (b, ⟨TStatus.skipped, some a, [TStatus.pending, TStatus.skipped]⟩),
       (c, ⟨TStatus.skipped, some a, [TStatus.pending, TStatus.skipped]⟩)] := by
    simp [runTasks, skipCause, findOutcome, hfail, h1, h2, h3]
  refine ⟨⟨TStatus.failed, none, runStatuses false defaultMaxRetries⟩,
    ⟨TStatus.skipped, some a, [TStatus.pending, TStatus.skipped]⟩,
    ⟨TStatus.skipped, some a, [TStatus.pending, TStatus.skipped]⟩,
    ?_, ?_, ?_, rfl, rfl, rfl, rfl, rfl, by simp, by simp⟩
  · rw [hrun]; simp [findOutcome]
  · rw [hrun]; simp [findOutcome, h1]
  · rw [hrun]; simp [findOutcome, h2, h3]

/-- C2 (witness): the cascade at the concrete chain A→B→C with an
always-failing task A. -/
theorem c2_failure_cascade_witness :
    ∃ ob : TaskOutcome,
      findOutcome (runTasks (fun _ => false) defaultMaxRetries
        [MTask.mk "A" [], MTask.mk "B" ["A"], MTask.mk "C" ["B"]]) "B"
          = some ob ∧
      ob.status = TStatus.skipped ∧ ob.skipReason = some "A" ∧
      TStatus.running ∉ ob.trace := by
  obtain ⟨oa, ob, oc, ha, hb, hc, has, hbs, hbr, hcs, hcr, hbt, hct⟩ :=
    c2_failure_cascade "A" "B" "C" (fun _ => false)
      (by decide) (by decide) (by decide) rfl
  exact ⟨ob, hb, hbs, hbr, hbt⟩

/-- C9: handling an `execution_progress` event replaces only the `progress`
and `status` fields of the DAG node whose id equals the payload node id; every
other node, the edge set, the critical path, and the agents, artifacts and
remaining fields of the stored result are unchanged; of the top-level state
only `result` and the recomputed `progress` change; and when no result is
stored the state is returned unchanged. -/
theorem c9_progress_frame (data : ProgressEventData) (prev : ExecutionState)
    (r : ExecutionResult) (h : prev.result = some r) :
    ∃ r' : ExecutionResult,
      (handleExecutionProgress data prev).result = some r' ∧
      r'.dag.nodes.length = r.dag.nodes.length ∧
      (∀ (i : Nat) (h1 : i < r.dag.nodes.length) (h2 : i < r'.dag.nodes.length),
        (if (r.dag.nodes.get ⟨i, h1⟩).id = data.nodeId then
          r'.dag.nodes.get ⟨i, h2⟩ =
            { r.dag.nodes.get ⟨i, h1⟩ with
              progress := some data.progress, status := data.status }
        else r'.dag.nodes.get ⟨i, h2⟩ = r.dag.nodes.get ⟨i, h1⟩)) ∧
      r'.dag.edges = r.dag.edges ∧
      r'.dag.criticalPath = r.dag.criticalPath ∧
      r'.agents = r.agents ∧
      r'.artifacts = r.artifacts ∧
      r'.id = r.id ∧ r'.refinementId = r.refinementId ∧ r'.status = r.status ∧
      r'.startTime = r.startTime ∧ r'.endTime = r.endTime ∧ r'.logs = r.logs ∧
      r'.progress = calculateOverallProgress r.dag.nodes data.nodeId data.progress ∧
      (handleExecutionProgress data prev).progress = r'.progress ∧
      (handleExecutionProgress data prev).isExecuting = prev.isExecuting ∧
      (handleExecutionProgress data prev).error = prev.error ∧
      (handleExecutionProgress data prev).selectedNodeId = prev.selectedNodeId ∧
      (handleExecutionProgress data prev).viewMode = prev.viewMode ∧
      (∀ q : ExecutionState, q.result = none → handleExecutionProgress data q = q) := by
  refine ⟨{ r with
      dag := { r.dag with
        nodes := r.dag.nodes.map (fun node =>
          if node.id == data.nodeId then
            { node with progress := some data.progress, status := data.status }
          else node) }
      progress := calculateOverallProgress r.dag.nodes data.nodeId data.progress },
    ?_, ?_, ?_, rfl, rfl, rfl, rfl, rfl, rfl, rfl, rfl, rfl, rfl, rfl, ?_,
    ?_, ?_, ?_, ?_, ?_⟩
  · simp [handleExecutionProgress, h]
  · simp
  · intro i hi1 hi2
    by_cases hid : (r.dag.nodes.get ⟨i, hi1⟩).id = data.nodeId
    · rw [if_pos hid]
      simp only [List.get_eq_getElem, List.getElem_map]
      rw [if_pos (by simpa using hid)]
    · rw [if_neg hid]
      simp only [List.get_eq_getElem, List.getElem_map]
      rw [if_neg (by simpa using hid)]
  · simp [handleExecutionProgress, h]
  · simp [handleExecutionProgress, h]
  · simp [handleExecutionProgress, h]
  · simp [handleExecutionProgress, h]
  · simp [handleExecutionProgress, h]
  · intro q hq
    simp [handleExecutionProgress, hq]

/-- C9 (witness): the event handler at a concrete stored execution result. -/
theorem c9_progress_frame_witness :
    ∃ r' : ExecutionResult,
      (handleExecutionProgress (ProgressEventData.mk "t1" 50 "running")
        (ExecutionState.mk true (some (ExecutionResult.mk "e" "rf" "running"
          (ExecutionDAG.mk [] [] []) [] [] 0 "s" none [])) 0 none none
          "dag")).result = some r' ∧
      r'.agents = [] := by
  obtain ⟨r', hr', hlen, hnodes, hedges, hcp, hagents, hrest⟩ :=
    c9_progress_frame (ProgressEventData.mk "t1" 50 "running")
      (ExecutionState.mk true (some (ExecutionResult.mk "e" "rf" "running"
        (ExecutionDAG.mk [] [] []) [] [] 0 "s" none [])) 0 none none "dag")
      (ExecutionResult.mk "e" "rf" "running"
        (ExecutionDAG.mk [] [] []) [] [] 0 "s" none []) rfl
  exact ⟨r', hr', hagents⟩

/-! ## Kahn elimination correctness, for C3 -/

/-- Removing at least one element through `filter` strictly shrinks a list. -/
lemma length_filter_lt {α : Type} (p : α → Bool) (l : List α) (x : α)
    (hx : x ∈ l) (hpx : p x = false) : (l.filter p).length < l.length := by
  induction l with
  | nil => cases hx
  | cons y ys ih =>
      rcases List.mem_cons.mp hx with rfl | hx2
      · simp only [List.filter_cons, hpx, Bool.false_eq_true, if_false,
          List.length_cons]
        exact Nat.lt_succ_of_le (List.length_filter_le p ys)
      · simp only [List.filter_cons, List.length_cons]
        split
        · simp only [List.length_cons]
          exact Nat.succ_lt_succ (ih hx2)
        · exact Nat.lt_succ_of_lt (ih hx2)

/-- Unpacking a positive incoming-edge test. -/
lemma hasIncomingFrom_true {edges : List (String × String)}
    {remaining : List String} {v : String}
    (h : hasIncomingFrom edges remaining v = true) :
    ∃ u ∈ remaining, (u, v) ∈ edges := by
  simp only [hasIncomingFrom, List.any_eq_true, Bool.and_eq_true, beq_iff_eq,
    List.elem_iff] at h
  obtain ⟨e, he, hv, hu⟩ := h
  refine ⟨e.1, hu, ?_⟩
  have : (e.1, e.2) ∈ edges := by simpa using he
  rwa [hv] at this

/-- Packing a positive incoming-edge test. -/
lemma hasIncomingFrom_of_mem {edges : List (String × String)}
    {remaining : List String} {v u : String}
    (hu : u ∈ remaining) (he : (u, v) ∈ edges) :
    hasIncomingFrom edges remaining v = true := by
  simp only [hasIncomingFrom, List.any_eq_true, Bool.and_eq_true, beq_iff_eq,
    List.elem_iff]
  exact ⟨(u, v), he, rfl, hu⟩

/-- When the elimination reports a cycle with sufficient fuel, some nonempty
subset of the remaining nodes is stuck: each of its members keeps an incoming
edge from within the subset. -/
lemma kahnAux_error_stuck (edges : List (String × String)) :
    ∀ (fuel : Nat) (remaining : List String),
      remaining.length ≤ fuel →
      kahnAux edges fuel remaining = Except.error BuildError.cycleDetected →
      ∃ R, StuckSet edges R ∧ R ⊆ remaining := by
  intro fuel
  induction fuel with
  | zero =>
      intro remaining hlen herr
      have h0 : remaining = [] := List.length_eq_zero.mp (Nat.le_zero.mp hlen)
      rw [h0] at herr
      simp [kahnAux] at herr
  | succ fuel ih =>
      intro remaining hlen herr
      cases remaining with
      | nil => simp [kahnAux] at herr
      | cons v rest =>
          simp only [kahnAux] at herr
          by_cases hready :
              ((v :: rest).filter
                (fun x => ! hasIncomingFrom edges (v :: rest) x)).isEmpty
          · refine ⟨v :: rest, ⟨List.cons_ne_nil v rest, ?_⟩, fun x hx => hx⟩
            intro x hx
            have hin : hasIncomingFrom edges (v :: rest) x = true := by
              by_contra hc
              have hxin : x ∈ (v :: rest).filter
                  (fun y => ! hasIncomingFrom edges (v :: rest) y) := by
                rw [List.mem_filter]
                exact ⟨hx, by simpa using hc⟩
              rw [List.isEmpty_iff.mp hready] at hxin
              cases hxin
            exact hasIncomingFrom_true hin
          · rw [if_neg hready] at herr
            obtain ⟨x, hx⟩ :=
              List.isEmpty_eq_false_iff_exists_mem.mp ((Bool.not_eq_true _).mp hready)
            cases hrec : kahnAux edges fuel
                ((v :: rest).filter (fun y => hasIncomingFrom edges (v :: rest) y)) with
            | ok order => rw [hrec] at herr; cases herr
            | error e =>
                rw [hrec] at herr
                cases e
                have hxmem : x ∈ v :: rest := (List.mem_filter.mp hx).1
                have hxfalse : hasIncomingFrom edges (v :: rest) x = false := by
                  have := (List.mem_filter.mp hx).2
                  simpa using this
                have hshrink :
                    ((v :: rest).filter
                      (fun y => hasIncomingFrom edges (v :: rest) y)).length
                      < (v :: rest).length :=
                  length_filter_lt _ _ x hxmem hxfalse
                obtain ⟨R, hR, hsub⟩ := ih _ (by omega) hrec
                exact ⟨R, hR, fun y hy => (List.mem_filter.mp (hsub hy)).1⟩

/-- When the elimination succeeds, no stuck subset of the remaining nodes can
exist: a stuck node is never removed, yet success removes every node. -/
lemma kahnAux_ok_no_stuck (edges : List (String × String)) :
    ∀ (fuel : Nat) (remaining L R : List String),
      kahnAux edges fuel remaining = Except.ok L →
      StuckSet edges R → R ⊆ remaining → False := by
  intro fuel
  induction fuel with
  | zero =>
      intro remaining L R hok hstuck hsub
      cases remaining with
      | nil =>
          exact hstuck.1 (List.subset_nil.mp hsub)
      | cons v rest => simp [kahnAux] at hok
  | succ fuel ih =>
      intro remaining L R hok hstuck hsub
      cases remaining with
      | nil =>
          exact hstuck.1 (List.subset_nil.mp hsub)
      | cons v rest =>
          simp only [kahnAux] at hok
          by_cases hready :
              ((v :: rest).filter
                (fun x => ! hasIncomingFrom edges (v :: rest) x)).isEmpty
          · rw [if_pos hready] at hok
            cases hok
          · rw [if_neg hready] at hok
            cases hrec : kahnAux edges fuel
                ((v :: rest).filter (fun y => hasIncomingFrom edges (v :: rest) y)) with
            | error e => rw [hrec] at hok; cases hok
            | ok order =>
                refine ih _ order R hrec hstuck ?_
                intro x hx
                obtain ⟨u, hu, hedge⟩ := hstuck.2 x hx
                exact List.mem_filter.mpr
                  ⟨hsub hx, hasIncomingFrom_of_mem (hsub hu) hedge⟩

/-- Every element of a relational chain has a predecessor within the chain. -/
lemma chain_exists_pred {α : Type} (Rel : α → α → Prop) :
    ∀ (m : List α) (a : α), List.Chain Rel a m →
      ∀ x ∈ m, ∃ u ∈ a :: m, Rel u x := by
  intro m
  induction m with
  | nil => intro a _ x hx; cases hx
  | cons b m2 ih =>
      intro a hchain x hx
      rw [List.chain_cons] at hchain
      obtain ⟨hab, hbm⟩ := hchain
      rcases List.mem_cons.mp hx with rfl | hx2
      · exact ⟨a, List.mem_cons_self a _, hab⟩
      · obtain ⟨u, hu, hux⟩ := ih b hbm x hx2
        exact ⟨u, List.mem_cons_of_mem a hu, hux⟩

/-- A directed cycle yields a stuck set, contained in any node list covering
the edge endpoints. -/
lemma hasCycle_stuck (edges : List (String × String)) (tasks : List String)
    (hwf : ∀ e ∈ edges, e.1 ∈ tasks ∧ e.2 ∈ tasks) (h : HasCycle edges) :
    ∃ R, StuckSet edges R ∧ R ⊆ tasks := by
  obtain ⟨v, l, hchain⟩ := h
  have hpred : ∀ x ∈ v :: l, ∃ u ∈ v :: l, (u, x) ∈ edges := by
    intro x hx
    have hx2 : x ∈ l ++ [v] := by
      rcases List.mem_cons.mp hx with rfl | h2
      · exact List.mem_append_right _ (List.mem_singleton.mpr rfl)
      · exact List.mem_append_left _ h2
    obtain ⟨u, hu, hux⟩ :=
      chain_exists_pred (EdgeStep edges) (l ++ [v]) v hchain x hx2
    refine ⟨u, ?_, hux⟩
    rcases List.mem_cons.mp hu with rfl | h2
    · exact List.mem_cons_self _ _
    · rcases List.mem_append.mp h2 with h3 | h3
      · exact List.mem_cons_of_mem _ h3
      · rw [List.mem_singleton.mp h3]
        exact List.mem_cons_self _ _
  refine ⟨v :: l, ⟨List.cons_ne_nil _ _, hpred⟩, ?_⟩
  intro x hx
  obtain ⟨u, _, hux⟩ := hpred x hx
  exact (hwf (u, x) hux).2

/-- A stuck set yields a directed cycle: following incoming edges backwards
inside the set must revisit a node. -/
lemma stuck_hasCycle (edges : List (String × String)) (R : List String)
    (h : StuckSet edges R) : HasCycle edges := by
  classical
  obtain ⟨hne, hpred⟩ := h
  obtain ⟨v0, hv0⟩ := List.exists_mem_of_ne_nil R hne
  let pick : {v // v ∈ R} → {v // v ∈ R} := fun x =>
    ⟨(hpred x.1 x.2).choose, (hpred x.1 x.2).choose_spec.1⟩
  have hpick : ∀ x : {v // v ∈ R}, ((pick x).1, x.1) ∈ edges := fun x =>
    (hpred x.1 x.2).choose_spec.2
  let f : ℕ → {v // v ∈ R} := fun n => pick^[n] ⟨v0, hv0⟩
  have hf : ∀ n : ℕ, ((f (n + 1)).1, (f n).1) ∈ edges := by
    intro n
    have h1 : f (n + 1) = pick (f n) :=
      Function.iterate_succ_apply' pick n ⟨v0, hv0⟩
    rw [h1]
    exact hpick (f n)
  have hchain : ∀ (d n : ℕ), ∃ m,
      List.Chain (EdgeStep edges) (f (n + d + 1)).1 (m ++ [(f n).1]) := by
    intro d
    induction d with
    | zero =>
        intro n
        refine ⟨[], ?_⟩
        simp only [List.nil_append]
        rw [List.chain_cons]
        exact ⟨hf n, List.Chain.nil⟩
    | succ d ihd =>
        intro n
        obtain ⟨m, hm⟩ := ihd (n + 1)
        have harith : n + 1 + d + 1 = n + (d + 1) + 1 := by omega
        rw [harith] at hm
        refine ⟨m ++ [(f (n + 1)).1], ?_⟩
        rw [List.append_assoc, List.singleton_append]
        rw [List.chain_split]
        refine ⟨hm, ?_⟩
        rw [List.chain_cons]
        exact ⟨hf n, List.Chain.nil⟩
  have hlen : ∀ n : ℕ, List.indexOf (f n).1 R < R.length := fun n =>
    List.indexOf_lt_length.mpr (f n).2
  obtain ⟨i, j, hne2, hg⟩ := Fintype.exists_ne_map_eq_of_card_lt
    (fun k : Fin (R.length + 1) =>
      (⟨List.indexOf (f k.1).1 R, hlen k.1⟩ : Fin R.length))
    (by simp)
  have hidx : List.indexOf (f i.1).1 R = List.indexOf (f j.1).1 R := by
    simpa using congrArg Fin.val hg
  have hval : (f i.1).1 = (f j.1).1 :=
    (List.indexOf_inj (f i.1).2 (f j.1).2).mp hidx
  have key : ∀ (p q : ℕ), p < q → (f p).1 = (f q).1 → HasCycle edges := by
    intro p q hpq heq
    obtain ⟨m, hm⟩ := hchain (q - p - 1) p
    have harith : p + (q - p - 1) + 1 = q := by omega
    rw [harith] at hm
    rw [heq] at hm
    exact ⟨(f q).1, m, hm⟩
  rcases Nat.lt_or_ge i.1 j.1 with hlt | hge
  · exact key i.1 j.1 hlt hval
  · have hne3 : j.1 ≠ i.1 := fun hh => hne2 (Fin.ext hh.symm)
    have hlt2 : j.1 < i.1 := lt_of_le_of_ne hge hne3
    exact key j.1 i.1 hlt2 hval.symm

/-- C3: with every edge endpoint drawn from the task list,
`build(tasks, edges)` fails with `CycleDetected` exactly when the edge set
contains a directed cycle, and every accepted task/edge set is acyclic (a
topological sort always succeeds on it). -/
theorem c3_build_cycle (tasks : List String) (edges : List (String × String))
    (hwf : ∀ e ∈ edges, e.1 ∈ tasks ∧ e.2 ∈ tasks) :
    (build tasks edges = Except.error BuildError.cycleDetected ↔
      HasCycle edges) ∧
    (∀ L, build tasks edges = Except.ok L → ¬ HasCycle edges) := by
  constructor
  · constructor
    · intro herr
      obtain ⟨R, hstuck, _⟩ :=
        kahnAux_error_stuck edges tasks.length tasks (le_refl _) herr
      exact stuck_hasCycle edges R hstuck
    · intro hcyc
      obtain ⟨R, hstuck, hsub⟩ := hasCycle_stuck edges tasks hwf hcyc
      cases hb : build tasks edges with
      | ok L =>
          exact absurd
            (kahnAux_ok_no_stuck edges tasks.length tasks L R hb hstuck hsub)
            not_false
      | error e => cases e; rfl
  · intro L hok hcyc
    obtain ⟨R, hstuck, hsub⟩ := hasCycle_stuck edges tasks hwf hcyc
    exact kahnAux_ok_no_stuck edges tasks.length tasks L R hok hstuck hsub

/-- C3 (witness): the characterization at the concrete two-task acyclic
graph. -/
theorem c3_build_cycle_witness :
    (∀ e ∈ [(("a" : String), ("b" : String))],
      (e.1 ∈ ["a", "b"] ∧ e.2 ∈ ["a", "b"])) ∧
    ((build ["a", "b"] [("a", "b")] = Except.error BuildError.cycleDetected ↔
        HasCycle [("a", "b")]) ∧
     (∀ L, build ["a", "b"] [("a", "b")] = Except.ok L →
        ¬ HasCycle [("a", "b")])) :=
  ⟨by decide, c3_build_cycle ["a", "b"] [("a", "b")] (by decide)⟩

end Specify
